import Mathlib

/-!
Verification of the cells genetic-algorithm simulation (`src/main.ts`
together with `src/utils/vector.ts`).

The embedding is shallow: JavaScript numbers are modelled by `ℝ`,
integer-valued counters (`energy`, `minEnergy`, `maxEnergy`) by `ℤ`,
and the global `Math.random()` source by an explicit stream
`rnd : ℕ → ℝ` of draws in `[0, 1)` addressed by an index that each
operation advances by the number of draws it consumes.  Operations
that can throw in the source (normalizing a zero vector, indexing an
array out of range) return `Option`, with `none` for the error.
-/

namespace CellsGA

noncomputable section

/-- Two-dimensional vector over the reals (`Vector2D` in `vector.ts`). -/
structure Vector2D where
  x : ℝ
  y : ℝ

/-- Method `add` from `vector.ts`: componentwise sum, returning a new vector. -/
def Vector2D.add (v w : Vector2D) : Vector2D := ⟨v.x + w.x, v.y + w.y⟩

/-- Method `multiply` from `vector.ts`: scale by a scalar. -/
def Vector2D.multiply (v : Vector2D) (s : ℝ) : Vector2D := ⟨v.x * s, v.y * s⟩

/-- Method `magnitude` from `vector.ts`: `Math.sqrt(x*x + y*y)`. -/
def Vector2D.magnitude (v : Vector2D) : ℝ := Real.sqrt (v.x * v.x + v.y * v.y)

/-- Method `normalize` from `vector.ts`: throws on a zero-magnitude vector
(modelled by `none`), otherwise divides both components by the
magnitude. -/
def Vector2D.normalize (v : Vector2D) : Option Vector2D :=
  if v.magnitude = 0 then none
  else some ⟨v.x / v.magnitude, v.y / v.magnitude⟩

/-- Method `distance` from `vector.ts`: Euclidean distance between two points. -/
def Vector2D.distance (v w : Vector2D) : ℝ :=
  Real.sqrt ((v.x - w.x) ^ 2 + (v.y - w.y) ^ 2)

/-- Static method `Vector2D.fromAngle`: the unit vector `(cos θ, sin θ)`. -/
def Vector2D.fromAngle (θ : ℝ) : Vector2D := ⟨Real.cos θ, Real.sin θ⟩

/-- The mobile agent (`class Cell` in `main.ts`), flattened together
with its `Organism` base-class fields (`position`, `radius`, `color`). -/
structure Cell where
  position : Vector2D
  radius : ℝ
  color : String
  startPosition : Vector2D
  velocity : Vector2D
  acceleration : Vector2D
  directions : List Vector2D
  energy : ℤ
  minEnergy : ℤ
  maxEnergy : ℤ
  speed : ℝ
  fitness : ℝ
  isDead : Bool
  reachedGoal : Bool

/-- The `Cell` constructor `new Cell(position, energy)`.  It draws one
random angle per genome slot (`energy` many draws starting at stream
index `k`) and starts with `energy - 1` units of usable energy. -/
def mkCell (pos : Vector2D) (energy : ℤ) (rnd : ℕ → ℝ) (k : ℕ) : Cell where
  position := pos
  radius := 2
  color := "#FFFFFF"
  startPosition := pos
  velocity := ⟨0, 0⟩
  acceleration := ⟨0, 0⟩
  directions :=
    (List.range energy.toNat).map fun i => Vector2D.fromAngle (rnd (k + i) * (2 * Real.pi))
  energy := energy - 1
  minEnergy := energy
  maxEnergy := energy
  speed := 5
  fitness := 0
  isDead := false
  reachedGoal := false

/-- Stationary goal (`class Bacteria`), with its `Organism` fields. -/
structure Bacteria where
  position : Vector2D
  radius : ℝ

/-- The `Bacteria` constructor: radius 5. -/
def mkBacteria (pos : Vector2D) : Bacteria := ⟨pos, 5⟩

/-- Method `Cell.move`: reads the acceleration at index `energy` of
`directions` (an invalid index is a JavaScript `undefined`, which
poisons the subsequent vector arithmetic — modelled by `none`), then
sets `velocity := normalize(velocity + acceleration) * speed` and
advances the position by the new velocity. -/
def Cell.move (c : Cell) : Option Cell :=
  if h : 0 ≤ c.energy ∧ c.energy.toNat < c.directions.length then
    ((c.velocity.add (c.directions.get ⟨c.energy.toNat, h.2⟩)).normalize).map fun u =>
      { c with
        acceleration := c.directions.get ⟨c.energy.toNat, h.2⟩
        velocity := u.multiply c.speed
        position := c.position.add (u.multiply c.speed) }
  else none

/-- The first check at the end of `Cell.update`: the cell dies if its
circle crosses the canvas boundary (width `w`, height `h`). -/
def boundaryCheck (w h : ℝ) (c : Cell) : Cell :=
  if c.position.x + c.radius ≥ w ∨ c.position.x - c.radius ≤ 0 ∨
      c.position.y + c.radius ≥ h ∨ c.position.y - c.radius ≤ 0 then
    { c with isDead := true }
  else c

/-- The second check at the end of `Cell.update`: the cell reaches the
goal (and dies) if its distance to the goal is below the goal's radius. -/
def goalCheck (goal : Bacteria) (c : Cell) : Cell :=
  if c.position.distance goal.position < goal.radius then
    { c with reachedGoal := true, isDead := true }
  else c

/-- Both checks at the end of `Cell.update`, in source order. -/
def applyChecks (goal : Bacteria) (w h : ℝ) (c : Cell) : Cell :=
  goalCheck goal (boundaryCheck w h c)

/-- Method `Cell.update(goal)`: a no-op for a dead cell; otherwise move and
spend one unit of energy when some is left, or die of exhaustion, and
in either case run the boundary and goal checks. -/
def Cell.update (c : Cell) (goal : Bacteria) (w h : ℝ) : Option Cell :=
  if c.isDead then some c
  else if 0 < c.energy then
    c.move.map fun m => applyChecks goal w h { m with energy := m.energy - 1 }
  else some (applyChecks goal w h { c with isDead := true })

/-- The value `minDist` in `calcFitness`: the minimum distance a cell can be from
the goal, `goal.radius - this.radius`. -/
def goalMinDist (c : Cell) (goal : Bacteria) : ℝ := goal.radius - c.radius

/-- The distance used by the not-reached branch of `calcFitness`: the
distance to the goal, raised to `minDist = goal.radius - radius` when it
falls below it. -/
def clampedDist (c : Cell) (goal : Bacteria) : ℝ :=
  if c.position.distance goal.position < goalMinDist c goal then goalMinDist c goal
  else c.position.distance goal.position

/-- Method `Cell.calcFitness(goal)`: sets the `fitness` field.  A cell that
reached the goal scores `1/minDist² + energy²` where
`minDist = goal.radius - radius`; any other cell scores `1/d²` with the
distance `d` clamped from below to `minDist`. -/
def Cell.calcFitness (c : Cell) (goal : Bacteria) : Cell :=
  if c.reachedGoal then
    { c with fitness :=
        1 / (goalMinDist c goal * goalMinDist c goal) + (c.energy : ℝ) * (c.energy : ℝ) }
  else
    { c with fitness := 1 / (clampedDist c goal * clampedDist c goal) }

/-- Function `rgbToHex` from `color.ts`: `'#' + ((1 << 24) + (r << 16) + (g << 8)
+ b).toString(16).slice(1)` (JavaScript's `toString(16)` is lowercase). -/
def rgbToHex (r g b : ℤ) : String :=
  "#" ++ ((Nat.toDigits 16 (2 ^ 24 + r * 2 ^ 16 + g * 2 ^ 8 + b).toNat).drop 1).asString

/-- Method `Cell.clone()`: a fresh cell at the start position with the same
energy allowance (the constructor consumes `maxEnergy` random draws for
a fresh genome), whose genome is then overwritten with a copy of this
cell's genome. -/
def Cell.clone (c : Cell) (rnd : ℕ → ℝ) (k : ℕ) : Cell :=
  { mkCell c.startPosition c.maxEnergy rnd k with directions := c.directions }

/-- Method `Cell.getChild()`: a clone with `minEnergy` lowered to the parent's
remaining energy at the time of the call. -/
def Cell.getChild (c : Cell) (rnd : ℕ → ℝ) (k : ℕ) : Cell :=
  { c.clone rnd k with minEnergy := c.energy }

/-- The genome index drawn by the reserve branch of `mutate`:
`Math.floor(Math.random() * (maxEnergy - minEnergy) + minEnergy)`. -/
def reserveIndex (r : ℝ) (minE maxE : ℤ) : ℤ :=
  ⌊r * ((maxE : ℝ) - (minE : ℝ)) + (minE : ℝ)⌋

/-- The per-locus loop of `Cell.mutate` over the list of genome indices
still to visit, carrying the genome, the next random-stream index and
the mutation counter.  A reserve-branch read outside the genome yields
the JavaScript `undefined` and is modelled by `none`. -/
def mutateLoop (rate : ℝ) (minE maxE : ℤ) (rnd : ℕ → ℝ) :
    List ℕ → List Vector2D → ℕ → ℕ → Option (List Vector2D × ℕ × ℕ)
  | [], dirs, k, cnt => some (dirs, k, cnt)
  | i :: rest, dirs, k, cnt =>
    if rnd k < rate then
      if rnd (k + 1) < rate then
        mutateLoop rate minE maxE rnd rest
          (dirs.set i (Vector2D.fromAngle (rnd (k + 2) * (2 * Real.pi)))) (k + 3) (cnt + 1)
      else
        if h : 0 ≤ reserveIndex (rnd (k + 2)) minE maxE ∧
            (reserveIndex (rnd (k + 2)) minE maxE).toNat < dirs.length then
          mutateLoop rate minE maxE rnd rest
            (dirs.set i (dirs.get ⟨(reserveIndex (rnd (k + 2)) minE maxE).toNat, h.2⟩))
            (k + 3) (cnt + 1)
        else none
    else mutateLoop rate minE maxE rnd rest dirs (k + 1) cnt

/-- Method `Cell.mutate(mutationRate)`: for each genome index in
`[0, maxEnergy)` draw `r`; with probability `mutationRate` mutate the
locus, replacing it by a fresh random direction (second draw again below
`mutationRate`) or by a gene read back at the reserve index; finally
darken the color in proportion to the number of mutated loci. -/
def Cell.mutate (c : Cell) (rate : ℝ) (rnd : ℕ → ℝ) (k : ℕ) : Option (Cell × ℕ) :=
  match mutateLoop rate c.minEnergy c.maxEnergy rnd
      (List.range c.maxEnergy.toNat) c.directions k 0 with
  | none => none
  | some (dirs, kk, cnt) =>
    some ({ c with
      directions := dirs
      color := rgbToHex ⌊(255 : ℝ) * (1 - (cnt : ℝ) / (c.maxEnergy : ℝ))⌋
        ⌊(255 : ℝ) * (1 - (cnt : ℝ) / (c.maxEnergy : ℝ))⌋
        ⌊(255 : ℝ) * (1 - (cnt : ℝ) / (c.maxEnergy : ℝ))⌋ }, kk)

/-- A concrete cell that has reached the goal, for the C3 witness. -/
def wCell3 : Cell where
  position := ⟨50, 26⟩
  radius := 2
  color := "#FFFFFF"
  startPosition := ⟨50, 95⟩
  velocity := ⟨0, 0⟩
  acceleration := ⟨0, 0⟩
  directions := [⟨1, 0⟩, ⟨0, 1⟩, ⟨1, 0⟩]
  energy := 2
  minEnergy := 3
  maxEnergy := 3
  speed := 5
  fitness := 0
  isDead := true
  reachedGoal := true

/-- A concrete goal, for the C3 witness. -/
def wGoal3 : Bacteria := ⟨⟨50, 25⟩, 5⟩

/-- A concrete live cell with exhausted energy, for the C4 witness. -/
def wCell4 : Cell where
  position := ⟨50, 50⟩
  radius := 2
  color := "#FFFFFF"
  startPosition := ⟨50, 95⟩
  velocity := ⟨0, 0⟩
  acceleration := ⟨0, 0⟩
  directions := [⟨1, 0⟩]
  energy := 0
  minEnergy := 1
  maxEnergy := 1
  speed := 5
  fitness := 0
  isDead := false
  reachedGoal := false

/-- A concrete goal placed at the C4 witness cell's position. -/
def wGoal4 : Bacteria := ⟨⟨50, 50⟩, 5⟩

/-- A concrete cell, for the C7 witness. -/
def wCell7 : Cell where
  position := ⟨50, 95⟩
  radius := 2
  color := "#FFFFFF"
  startPosition := ⟨50, 95⟩
  velocity := ⟨0, 0⟩
  acceleration := ⟨0, 0⟩
  directions := [⟨1, 0⟩, ⟨0, 1⟩]
  energy := 1
  minEnergy := 2
  maxEnergy := 2
  speed := 5
  fitness := 0
  isDead := false
  reachedGoal := false

/-- A concrete parent cell, for the C8 witness. -/
def wCell8 : Cell where
  position := ⟨10, 20⟩
  radius := 2
  color := "#FFFFFF"
  startPosition := ⟨50, 95⟩
  velocity := ⟨3, 4⟩
  acceleration := ⟨1, 0⟩
  directions := [⟨1, 0⟩, ⟨0, 1⟩, ⟨-1, 0⟩]
  energy := 1
  minEnergy := 3
  maxEnergy := 3
  speed := 5
  fitness := 7
  isDead := true
  reachedGoal := false

/-- A concrete parent cell, for the C10 witness. -/
def wCell10 : Cell where
  position := ⟨10, 20⟩
  radius := 2
  color := "#FFFFFF"
  startPosition := ⟨50, 95⟩
  velocity := ⟨0, 0⟩
  acceleration := ⟨0, 0⟩
  directions := [⟨1, 0⟩, ⟨0, 1⟩, ⟨-1, 0⟩]
  energy := 1
  minEnergy := 3
  maxEnergy := 3
  speed := 5
  fitness := 0
  isDead := true
  reachedGoal := false

/-- A concrete cell at rest with a one-gene unit genome, for the C9
witness. -/
def wCell9 : Cell where
  position := ⟨50, 95⟩
  radius := 2
  color := "#FFFFFF"
  startPosition := ⟨50, 95⟩
  velocity := ⟨0, 0⟩
  acceleration := ⟨0, 0⟩
  directions := [⟨1, 0⟩]
  energy := 0
  minEnergy := 1
  maxEnergy := 1
  speed := 5
  fitness := 0
  isDead := false
  reachedGoal := false

/-- The scanning loop of `Population.selectParent`: walk the first `n`
cells, subtracting each cell's fitness from the running draw, and
return the first cell at which the draw becomes ≤ 0; `none` when the
loop exhausts without a crossing. -/
def selectLoop : ℝ → ℕ → List Cell → Option Cell
  | _, 0, _ => none
  | _, _ + 1, [] => none
  | r, n + 1, c :: rest =>
    if r - c.fitness ≤ 0 then some c else selectLoop (r - c.fitness) n rest

/-- Method `Population.selectParent()` with the random draw
`r = Math.random() * this.fitness` made explicit: run the scan over the
first `n = this.size` cells and fall back to `this.cells[0]` when the
scan exhausts ("should never be called just here to satisfy type
requirements"). -/
def selectParent (r : ℝ) (n : ℕ) (cells : List Cell) : Option Cell :=
  match selectLoop r n cells with
  | some c => some c
  | none => cells.head?

/-- The sum of the fitness values of a list of cells. -/
def sumFit (cells : List Cell) : ℝ := (cells.map Cell.fitness).sum

/-- A concrete cell with fitness 1, for the C2 theorems. -/
def wCell2A : Cell where
  position := ⟨30, 40⟩
  radius := 2
  color := "#FFFFFF"
  startPosition := ⟨50, 95⟩
  velocity := ⟨0, 0⟩
  acceleration := ⟨0, 0⟩
  directions := [⟨1, 0⟩]
  energy := 0
  minEnergy := 1
  maxEnergy := 1
  speed := 5
  fitness := 1
  isDead := true
  reachedGoal := false

/-- A concrete cell with fitness 2, for the C2 theorems. -/
def wCell2B : Cell where
  position := ⟨60, 70⟩
  radius := 2
  color := "#FFFFFF"
  startPosition := ⟨50, 95⟩
  velocity := ⟨0, 0⟩
  acceleration := ⟨0, 0⟩
  directions := [⟨0, 1⟩, ⟨1, 0⟩]
  energy := 1
  minEnergy := 2
  maxEnergy := 2
  speed := 5
  fitness := 2
  isDead := true
  reachedGoal := false

/-- The throwaway "fittest so far" seed of `evolve`:
`new Cell(new Vector2D(0, 0), 0)`.  Its constructor draws no randoms
(its genome is empty), so the stream argument is irrelevant. -/
def dummyCell : Cell := mkCell ⟨0, 0⟩ 0 (fun _ => 0) 0

/-- The fitness of the current `fittestCell` reference in `evolve`:
the dummy's fitness 0 when no scanned cell has been adopted yet,
otherwise the CURRENT fitness of the aliased cell (updated in place by
`fitnessSum`), read off the current cell list. -/
def curFit (cells : List Cell) (fittest : Option ℕ) : ℝ :=
  match fittest with
  | none => 0
  | some j => ((cells.get? j).map Cell.fitness).getD 0

/-- Method `Population.fitnessSum()` limited to the first `n = this.size`
cells: recompute each cell's fitness via `calcFitness` and return the
updated cells together with the sum (`none` when `size` overruns the
collection, where the source would crash on `undefined`). -/
def fitnessSumGo (goal : Bacteria) : ℕ → List Cell → Option (List Cell × ℝ)
  | 0, cells => some (cells, 0)
  | _ + 1, [] => none
  | n + 1, c :: rest =>
    match fitnessSumGo goal n rest with
    | none => none
    | some (cs, s) => some ((c.calcFitness goal) :: cs, (c.calcFitness goal).fitness + s)

/-- The main loop of `Population.evolve` with `j` iterations remaining
and `i` the current index: compare cell `i`'s (possibly stale) fitness
against the running fittest, recompute all fitness values and the
population sum, select a parent with one random draw, spawn and mutate
a child, and append it to the accumulator. -/
def evolveLoop (goal : Bacteria) (rate : ℝ) (size : ℕ) (rnd : ℕ → ℝ) :
    ℕ → ℕ → List Cell → ℝ → Option ℕ → List Cell → ℕ →
    Option (List Cell × ℝ × Option ℕ × List Cell × ℕ)
  | 0, _, cells, fit, fittest, acc, k => some (cells, fit, fittest, acc, k)
  | j + 1, i, cells, _fit, fittest, acc, k =>
    match cells.get? i with
    | none => none
    | some ci =>
      match fitnessSumGo goal size cells with
      | none => none
      | some (cells', s) =>
        match selectParent (rnd k * s) size cells' with
        | none => none
        | some parent =>
          match (parent.getChild rnd (k + 1)).mutate rate rnd
              (k + 1 + parent.maxEnergy.toNat) with
          | none => none
          | some (child, kk) =>
            evolveLoop goal rate size rnd j (i + 1) cells' s
              (if ci.fitness > curFit cells fittest then some i else fittest)
              (acc ++ [child]) kk

/-- The population (`class Population`), restricted to the fields the
evolution step reads or writes; the viruses play no role in `evolve`. -/
structure Population where
  size : ℕ
  mutationRate : ℝ
  cells : List Cell
  goal : Bacteria
  fitness : ℝ
  generation : ℤ

/-- Method `Population.evolve()`: run the loop for `size - 1` iterations
starting from the dummy fittest, then clone the adopted fittest cell
(or the dummy when none was adopted), paint it black and append it as
the final member of the new generation. -/
def Population.evolve (p : Population) (rnd : ℕ → ℝ) (k : ℕ) : Option (Population × ℕ) :=
  match evolveLoop p.goal p.mutationRate p.size rnd (p.size - 1) 0 p.cells p.fitness none [] k with
  | none => none
  | some (cells', fit', fittest, acc, kk) =>
    match fittest with
    | none =>
      some ({ p with
        cells := acc ++ [{ dummyCell.clone rnd kk with color := "#000000" }]
        fitness := fit' }, kk + dummyCell.maxEnergy.toNat)
    | some j =>
      match cells'.get? j with
      | none => none
      | some cj =>
        some ({ p with
          cells := acc ++ [{ cj.clone rnd kk with color := "#000000" }]
          fitness := fit' }, kk + cj.maxEnergy.toNat)

/-- Modelled from the spec: "Select the fittest cell of the outgoing
generation by a single linear scan (ties broken by first-seen, i.e.,
lowest index)." -/
def specFittest (cells : List Cell) : Option Cell :=
  cells.foldl (fun best c =>
    match best with
    | none => some c
    | some b => if c.fitness > b.fitness then some c else some b) none

/-- The live-range invariant of simulation cells: at least one gene, a
current energy inside `[0, maxEnergy - 1]`, and a genome of length
`maxEnergy`. -/
def GoodCell (c : Cell) : Prop :=
  1 ≤ c.maxEnergy ∧ 0 ≤ c.energy ∧ c.energy ≤ c.maxEnergy - 1 ∧
  c.directions.length = c.maxEnergy.toNat

/-- The shape of a cell freshly spawned by `evolve`'s child loop: fully
reset, alive at its own start position, which is one of the listed
start positions, with a nonempty genome. -/
def SpawnedCell (sps : List Vector2D) (c : Cell) : Prop :=
  c.isDead = false ∧ c.reachedGoal = false ∧ c.velocity = ⟨0, 0⟩ ∧
  c.acceleration = ⟨0, 0⟩ ∧ c.fitness = 0 ∧ c.energy = c.maxEnergy - 1 ∧
  1 ≤ c.maxEnergy ∧ c.position = c.startPosition ∧ c.startPosition ∈ sps

/-- A concrete good cell, for the C6 witness. -/
def wCell6 : Cell where
  position := ⟨12, 34⟩
  radius := 2
  color := "#FFFFFF"
  startPosition := ⟨55, 95⟩
  velocity := ⟨0, 0⟩
  acceleration := ⟨0, 0⟩
  directions := [⟨1, 0⟩]
  energy := 0
  minEnergy := 1
  maxEnergy := 1
  speed := 5
  fitness := 0
  isDead := true
  reachedGoal := true

/-- A concrete one-cell population, for the C6 witness. -/
def wPop6 : Population where
  size := 1
  mutationRate := 0
  cells := [wCell6]
  goal := ⟨⟨50, 25⟩, 5⟩
  fitness := 0
  generation := 1

/-- First outgoing cell of the C1 failing input: one gene, all energy
spent, reached the goal, stale fitness 0. -/
def wCellC1a : Cell where
  position := ⟨50, 24⟩
  radius := 2
  color := "#FFFFFF"
  startPosition := ⟨60, 90⟩
  velocity := ⟨0, 0⟩
  acceleration := ⟨0, 0⟩
  directions := [⟨1, 0⟩]
  energy := 0
  minEnergy := 1
  maxEnergy := 1
  speed := 5
  fitness := 0
  isDead := true
  reachedGoal := true

/-- Second outgoing cell of the C1 failing input: two genes, one unit
of energy left, reached the goal, stale fitness 0 — the genuinely
fittest cell of the generation. -/
def wCellC1b : Cell where
  position := ⟨50, 26⟩
  radius := 2
  color := "#FFFFFF"
  startPosition := ⟨60, 90⟩
  velocity := ⟨0, 0⟩
  acceleration := ⟨0, 0⟩
  directions := [⟨0, 1⟩, ⟨0, 1⟩]
  energy := 1
  minEnergy := 2
  maxEnergy := 2
  speed := 5
  fitness := 0
  isDead := true
  reachedGoal := true

/-- The C1 failing input: a two-cell population about to evolve. -/
def wPopC1 : Population where
  size := 2
  mutationRate := 0
  cells := [wCellC1a, wCellC1b]
  goal := ⟨⟨50, 25⟩, 5⟩
  fitness := 0
  generation := 1

/-- First outgoing cell of the C6 counterexample, starting at
`(100, 100)`. -/
def wCellC6a : Cell where
  position := ⟨50, 24⟩
  radius := 2
  color := "#FFFFFF"
  startPosition := ⟨100, 100⟩
  velocity := ⟨0, 0⟩
  acceleration := ⟨0, 0⟩
  directions := [⟨1, 0⟩]
  energy := 0
  minEnergy := 1
  maxEnergy := 1
  speed := 5
  fitness := 0
  isDead := true
  reachedGoal := true

/-- Second outgoing cell of the C6 counterexample, starting at
`(100, 100)`. -/
def wCellC6b : Cell where
  position := ⟨50, 26⟩
  radius := 2
  color := "#FFFFFF"
  startPosition := ⟨100, 100⟩
  velocity := ⟨0, 0⟩
  acceleration := ⟨0, 0⟩
  directions := [⟨0, 1⟩, ⟨0, 1⟩]
  energy := 1
  minEnergy := 2
  maxEnergy := 2
  speed := 5
  fitness := 0
  isDead := true
  reachedGoal := true

/-- The C6 counterexample population: two cells with fixed start
position `(100, 100)`. -/
def wPopC6 : Population where
  size := 2
  mutationRate := 0
  cells := [wCellC6a, wCellC6b]
  goal := ⟨⟨50, 25⟩, 5⟩
  fitness := 0
  generation := 1

/-- A size-0 population, for the C6 counterexample. -/
def wPopC6z : Population where
  size := 0
  mutationRate := 0
  cells := []
  goal := ⟨⟨50, 25⟩, 5⟩
  fitness := 0
  generation := 1

/-- A concrete dead cell, for the C5 witness. -/
def wCell5 : Cell where
  position := ⟨40, 40⟩
  radius := 2
  color := "#FFFFFF"
  startPosition := ⟨50, 95⟩
  velocity := ⟨3, 4⟩
  acceleration := ⟨1, 0⟩
  directions := [⟨0, 1⟩, ⟨1, 0⟩]
  energy := 1
  minEnergy := 2
  maxEnergy := 2
  speed := 5
  fitness := 0
  isDead := true
  reachedGoal := false

/-- A concrete goal, for the C5 witness. -/
def wGoal5 : Bacteria := ⟨⟨50, 25⟩, 5⟩

/-- The boundary/goal checks change only the two life-state flags. -/
lemma applyChecks_fields (goal : Bacteria) (w h : ℝ) (c : Cell) :
    (applyChecks goal w h c).position = c.position ∧
    (applyChecks goal w h c).velocity = c.velocity ∧
    (applyChecks goal w h c).acceleration = c.acceleration ∧
    (applyChecks goal w h c).directions = c.directions ∧
    (applyChecks goal w h c).energy = c.energy ∧
    (applyChecks goal w h c).minEnergy = c.minEnergy ∧
    (applyChecks goal w h c).maxEnergy = c.maxEnergy ∧
    (applyChecks goal w h c).speed = c.speed ∧
    (applyChecks goal w h c).startPosition = c.startPosition := by
  unfold applyChecks goalCheck boundaryCheck
  split <;> split <;> exact ⟨rfl, rfl, rfl, rfl, rfl, rfl, rfl, rfl, rfl⟩

/-- The boundary/goal checks never resurrect a dead cell. -/
lemma applyChecks_isDead_mono (goal : Bacteria) (w h : ℝ) (c : Cell)
    (hc : c.isDead = true) : (applyChecks goal w h c).isDead = true := by
  unfold applyChecks goalCheck boundaryCheck
  split <;> split <;> simp_all

/-- The boundary/goal checks preserve the invariant that a cell that
has reached the goal is also dead (they set the two flags together). -/
lemma applyChecks_inv (goal : Bacteria) (w h : ℝ) (c : Cell)
    (hc : c.reachedGoal = true → c.isDead = true) :
    (applyChecks goal w h c).reachedGoal = true → (applyChecks goal w h c).isDead = true := by
  unfold applyChecks goalCheck boundaryCheck
  split <;> split <;> simp_all

/-- A successful `move` changes only `position`, `velocity` and
`acceleration`. -/
lemma move_fields (c m : Cell) (hm : c.move = some m) :
    m.energy = c.energy ∧ m.minEnergy = c.minEnergy ∧ m.maxEnergy = c.maxEnergy ∧
    m.directions = c.directions ∧ m.speed = c.speed ∧ m.isDead = c.isDead ∧
    m.reachedGoal = c.reachedGoal ∧ m.fitness = c.fitness ∧
    m.startPosition = c.startPosition := by
  unfold Cell.move at hm
  split at hm
  · rcases Option.map_eq_some'.mp hm with ⟨u, hu, rfl⟩
    exact ⟨rfl, rfl, rfl, rfl, rfl, rfl, rfl, rfl, rfl⟩
  · exact absurd hm (by simp)

/-- C3: for every cell and goal with `goal.radius > cell.radius`,
`calcFitness` sets the fitness to `1/minDist² + energy²` in the
REACHED_GOAL branch (with `minDist = goal.radius - radius` and `energy`
the remaining energy) and to `1/d²` with `d = max(distance, minDist)`
otherwise, and in both branches the result is strictly positive. -/
theorem calcFitness_formula_pos (c : Cell) (goal : Bacteria)
    (hr : c.radius < goal.radius) :
    (c.reachedGoal = true →
      (c.calcFitness goal).fitness =
        1 / ((goal.radius - c.radius) * (goal.radius - c.radius)) +
          (c.energy : ℝ) * (c.energy : ℝ)) ∧
    (c.reachedGoal = false →
      (c.calcFitness goal).fitness =
        1 / (max (c.position.distance goal.position) (goal.radius - c.radius) *
             max (c.position.distance goal.position) (goal.radius - c.radius))) ∧
    0 < (c.calcFitness goal).fitness := by
  have hmin : 0 < goal.radius - c.radius := by linarith
  have hcl : clampedDist c goal =
      max (c.position.distance goal.position) (goal.radius - c.radius) := by
    unfold clampedDist goalMinDist
    rw [max_comm, max_def]
    split <;> split <;> first | rfl | linarith
  rcases hb : c.reachedGoal with _ | _
  · have hfit : (c.calcFitness goal).fitness =
        1 / (clampedDist c goal * clampedDist c goal) := by
      unfold Cell.calcFitness
      rw [if_neg (by simp [hb])]
    refine ⟨fun h => absurd h (by simp), fun _ => by rw [hfit, hcl], ?_⟩
    rw [hfit, hcl]
    have hdp : 0 < max (c.position.distance goal.position) (goal.radius - c.radius) :=
      lt_of_lt_of_le hmin (le_max_right _ _)
    exact div_pos one_pos (mul_pos hdp hdp)
  · have hfit : (c.calcFitness goal).fitness =
        1 / ((goal.radius - c.radius) * (goal.radius - c.radius)) +
          (c.energy : ℝ) * (c.energy : ℝ) := by
      unfold Cell.calcFitness goalMinDist
      rw [if_pos hb]
    refine ⟨fun _ => hfit, fun h => absurd h (by simp), ?_⟩
    rw [hfit]
    have h1 : 0 < 1 / ((goal.radius - c.radius) * (goal.radius - c.radius)) :=
      div_pos one_pos (mul_pos hmin hmin)
    nlinarith [mul_self_nonneg ((c.energy : ℝ))]

/-- C4: one tick of a live cell never increases its energy and keeps it
in `[0, maxEnergy - 1]`; with energy left it performs `move()` and then
spends exactly one unit; with no energy left it dies in place; and a
freshly constructed cell with a positive energy allowance starts inside
the range. -/
theorem cell_energy_tick (goal : Bacteria) (w h : ℝ) (c : Cell)
    (halive : c.isDead = false) :
    (∀ c', c.update goal w h = some c' →
        c'.energy ≤ c.energy ∧ c'.maxEnergy = c.maxEnergy ∧
        (0 ≤ c.energy → 0 ≤ c'.energy) ∧
        (c.energy ≤ c.maxEnergy - 1 → c'.energy ≤ c'.maxEnergy - 1)) ∧
    (0 < c.energy → ∀ m, c.move = some m →
        c.update goal w h = some (applyChecks goal w h { m with energy := m.energy - 1 }) ∧
        m.energy = c.energy ∧
        (∀ c', c.update goal w h = some c' → c'.energy = c.energy - 1)) ∧
    (c.energy = 0 →
        c.update goal w h = some (applyChecks goal w h { c with isDead := true }) ∧
        (∀ c', c.update goal w h = some c' →
          c'.isDead = true ∧ c'.position = c.position ∧ c'.velocity = c.velocity ∧
          c'.energy = c.energy)) ∧
    (∀ pos E rnd k, 1 ≤ E →
        0 ≤ (mkCell pos E rnd k).energy ∧
        (mkCell pos E rnd k).energy ≤ (mkCell pos E rnd k).maxEnergy - 1) := by
  refine ⟨?_, ?_, ?_, ?_⟩
  · intro c' hc'
    unfold Cell.update at hc'
    rw [halive] at hc'
    simp only [Bool.false_eq_true, if_false] at hc'
    split at hc'
    · rcases Option.map_eq_some'.mp hc' with ⟨m, hm, rfl⟩
      obtain ⟨hE, _, hM, _⟩ := move_fields c m hm
      have hf := applyChecks_fields goal w h { m with energy := m.energy - 1 }
      rw [hf.2.2.2.2.1, hf.2.2.2.2.2.2.1]
      dsimp only
      refine ⟨by omega, by omega, fun _ => by omega, fun hle => by omega⟩
    · obtain ⟨rfl⟩ := Option.some_inj.mp hc'
      have hf := applyChecks_fields goal w h { c with isDead := true }
      rw [hf.2.2.2.2.1, hf.2.2.2.2.2.2.1]
      dsimp only
      omega
  · intro hE m hm
    have hupd : c.update goal w h =
        some (applyChecks goal w h { m with energy := m.energy - 1 }) := by
      unfold Cell.update
      rw [halive]
      simp only [Bool.false_eq_true, if_false, if_pos hE, hm, Option.map_some']
    obtain ⟨hEm, _⟩ := move_fields c m hm
    refine ⟨hupd, hEm, ?_⟩
    intro c' hc'
    rw [hupd] at hc'
    obtain ⟨rfl⟩ := Option.some_inj.mp hc'
    have hf := applyChecks_fields goal w h { m with energy := m.energy - 1 }
    rw [hf.2.2.2.2.1]
    dsimp only
    omega
  · intro hE0
    have hupd : c.update goal w h = some (applyChecks goal w h { c with isDead := true }) := by
      unfold Cell.update
      rw [halive]
      simp only [Bool.false_eq_true, if_false]
      rw [if_neg (by omega)]
    refine ⟨hupd, ?_⟩
    intro c' hc'
    rw [hupd] at hc'
    obtain ⟨rfl⟩ := Option.some_inj.mp hc'
    have hf := applyChecks_fields goal w h { c with isDead := true }
    refine ⟨applyChecks_isDead_mono goal w h _ rfl, ?_, ?_, ?_⟩
    · rw [hf.1]
    · rw [hf.2.1]
    · rw [hf.2.2.2.2.1]
  · intro pos E rnd k hE
    constructor
    · simp only [mkCell]; omega
    · simp only [mkCell]; omega

/-- Witness for C3 at a concrete reached-goal cell: the fitness is
`1/3² + 2² = 1/9 + 4` and strictly positive. -/
theorem calcFitness_formula_pos_witness :
    wCell3.radius < wGoal3.radius ∧
    (wCell3.calcFitness wGoal3).fitness = 1 / 9 + 4 ∧
    0 < (wCell3.calcFitness wGoal3).fitness := by
  have h := calcFitness_formula_pos wCell3 wGoal3 (by norm_num [wCell3, wGoal3])
  refine ⟨by norm_num [wCell3, wGoal3], ?_, h.2.2⟩
  rw [h.1 rfl]
  norm_num [wCell3, wGoal3]

/-- Witness for C4 at a concrete live cell with `energy = 0`: the tick
kills it in place without moving it, and the state after the checks
evaluates to the cell with both flags raised (the boundary test fails,
the goal test succeeds at distance 0). -/
theorem cell_energy_tick_witness :
    wCell4.isDead = false ∧
    wCell4.update wGoal4 100 100 = some (applyChecks wGoal4 100 100 { wCell4 with isDead := true }) ∧
    applyChecks wGoal4 100 100 { wCell4 with isDead := true } =
      { wCell4 with isDead := true, reachedGoal := true } := by
  refine ⟨rfl, ((cell_energy_tick wGoal4 100 100 wCell4 rfl).2.2.1 rfl).1, ?_⟩
  unfold applyChecks boundaryCheck goalCheck Vector2D.distance
  norm_num [wCell4, wGoal4]

/-- C5: a tick of a cell in a terminal state (DEAD, or REACHED_GOAL
under the invariant that reaching the goal implies death) is a no-op
returning the cell unchanged; one tick preserves that invariant; and a
freshly constructed cell starts with both flags cleared. -/
theorem terminal_tick_noop :
    (∀ (goal : Bacteria) (w h : ℝ) (c : Cell),
        (c.reachedGoal = true → c.isDead = true) →
        (c.isDead = true ∨ c.reachedGoal = true) →
        c.update goal w h = some c) ∧
    (∀ (goal : Bacteria) (w h : ℝ) (c c' : Cell),
        (c.reachedGoal = true → c.isDead = true) →
        c.update goal w h = some c' →
        (c'.reachedGoal = true → c'.isDead = true)) ∧
    (∀ pos E rnd k,
        (mkCell pos E rnd k).isDead = false ∧ (mkCell pos E rnd k).reachedGoal = false) := by
  refine ⟨?_, ?_, fun pos E rnd k => ⟨rfl, rfl⟩⟩
  · intro goal w h c hinv hterm
    have hdead : c.isDead = true := by
      rcases hterm with h1 | h1
      · exact h1
      · exact hinv h1
    unfold Cell.update
    rw [hdead]
    simp
  · intro goal w h c c' hinv hc'
    unfold Cell.update at hc'
    rcases hd : c.isDead with _ | _
    · rw [hd] at hc'
      simp only [Bool.false_eq_true, if_false] at hc'
      split at hc'
      · rcases Option.map_eq_some'.mp hc' with ⟨m, hm, rfl⟩
        have hmf := move_fields c m hm
        refine applyChecks_inv goal w h _ ?_
        intro hrg
        have : m.reachedGoal = c.reachedGoal := hmf.2.2.2.2.2.2.1
        simp only at hrg
        rw [this] at hrg
        rw [hinv hrg] at hd
        exact absurd hd (by simp)
      · obtain ⟨rfl⟩ := Option.some_inj.mp hc'
        exact fun _ => applyChecks_isDead_mono goal w h _ rfl
    · rw [hd] at hc'
      simp only [if_true] at hc'
      obtain ⟨rfl⟩ := Option.some_inj.mp hc'
      intro _
      exact hd

/-- With mutation rate 0 the per-locus loop changes nothing: the first
draw is nonnegative, so no locus ever fires. -/
lemma mutateLoop_rate_zero (minE maxE : ℤ) (rnd : ℕ → ℝ) (hr : ∀ n, 0 ≤ rnd n) :
    ∀ (l : List ℕ) (dirs : List Vector2D) (k cnt : ℕ),
      mutateLoop 0 minE maxE rnd l dirs k cnt = some (dirs, k + l.length, cnt) := by
  intro l
  induction l with
  | nil => intro dirs k cnt; simp [mutateLoop]
  | cons i rest ih =>
    intro dirs k cnt
    simp only [mutateLoop, List.length_cons]
    rw [if_neg (not_lt.mpr (hr k)), ih]
    have h1 : k + 1 + rest.length = k + (rest.length + 1) := by omega
    rw [h1]

/-- With mutation rate 1 the per-locus loop takes the fresh-random-angle
branch at every locus: over the index block `[s, s + m)` it succeeds,
consumes three draws per locus, counts every locus as mutated, and
overwrites exactly the visited loci. -/
lemma mutateLoop_rate_one (minE maxE : ℤ) (rnd : ℕ → ℝ) (hr : ∀ n, rnd n < 1) :
    ∀ (m s : ℕ) (dirs : List Vector2D) (k cnt : ℕ),
      ∃ dirs', mutateLoop 1 minE maxE rnd (List.range' s m) dirs k cnt =
          some (dirs', k + 3 * m, cnt + m) ∧
        dirs'.length = dirs.length ∧
        (∀ j, j < s → dirs'.get? j = dirs.get? j) ∧
        (∀ j, s ≤ j → j < s + m → j < dirs.length →
          dirs'.get? j =
            some (Vector2D.fromAngle (rnd (k + 3 * (j - s) + 2) * (2 * Real.pi)))) ∧
        (∀ j, s + m ≤ j → dirs'.get? j = dirs.get? j) := by
  intro m
  induction m with
  | zero =>
    intro s dirs k cnt
    exact ⟨dirs, by simp [mutateLoop], rfl, fun _ _ => rfl, fun j h1 h2 _ => by omega,
      fun _ _ => rfl⟩
  | succ m ih =>
    intro s dirs k cnt
    rw [List.range'_succ]
    obtain ⟨dirs', hloop, hlen, hlo, hmid, hhi⟩ :=
      ih (s + 1) (dirs.set s (Vector2D.fromAngle (rnd (k + 2) * (2 * Real.pi)))) (k + 3)
        (cnt + 1)
    refine ⟨dirs', ?_, ?_, ?_, ?_, ?_⟩
    · simp only [mutateLoop]
      rw [if_pos (hr k), if_pos (hr (k + 1)), hloop]
      have h1 : k + 3 + 3 * m = k + 3 * (m + 1) := by omega
      have h2 : cnt + 1 + m = cnt + (m + 1) := by omega
      rw [h1, h2]
    · rw [hlen, List.length_set]
    · intro j hj
      rw [hlo j (by omega), List.get?_set_ne _ _ (by omega)]
    · intro j hjs hjm hjl
      rcases Nat.eq_or_lt_of_le hjs with heq | hlt
      · subst heq
        rw [hlo s (by omega), List.get?_set_eq_of_lt _ hjl]
        have h3 : k + 3 * (s - s) + 2 = k + 2 := by omega
        rw [h3]
      · have h4 := hmid j (by omega) (by omega) (by rwa [List.length_set])
        have h5 : k + 3 + 3 * (j - (s + 1)) + 2 = k + 3 * (j - s) + 2 := by omega
        rw [h5] at h4
        exact h4
    · intro j hj
      rw [hhi j (by omega), List.get?_set_ne _ _ (by omega)]

/-- C7: for every cell and every stream of random draws in `[0, 1)`,
`mutate(0)` succeeds and leaves the genome unchanged, while `mutate(1)`
succeeds and overwrites every genome locus with a freshly sampled
random direction. -/
theorem mutate_rate_extremes :
    (∀ (c : Cell) (rnd : ℕ → ℝ) (k : ℕ), (∀ n, 0 ≤ rnd n) →
      ∃ c' kk, c.mutate 0 rnd k = some (c', kk) ∧ c'.directions = c.directions) ∧
    (∀ (c : Cell) (rnd : ℕ → ℝ) (k : ℕ), (∀ n, rnd n < 1) →
      ∃ c' kk, c.mutate 1 rnd k = some (c', kk) ∧
        c'.directions.length = c.directions.length ∧
        ∀ j, j < c.maxEnergy.toNat → j < c.directions.length →
          c'.directions.get? j =
            some (Vector2D.fromAngle (rnd (k + 3 * j + 2) * (2 * Real.pi)))) := by
  constructor
  · intro c rnd k hr
    unfold Cell.mutate
    rw [mutateLoop_rate_zero c.minEnergy c.maxEnergy rnd hr]
    exact ⟨_, _, rfl, rfl⟩
  · intro c rnd k hr
    obtain ⟨dirs', hloop, hlen, _, hmid, _⟩ :=
      mutateLoop_rate_one c.minEnergy c.maxEnergy rnd hr c.maxEnergy.toNat 0 c.directions k 0
    unfold Cell.mutate
    rw [List.range_eq_range', hloop]
    refine ⟨_, _, rfl, hlen, ?_⟩
    intro j hj hjl
    have h6 := hmid j (Nat.zero_le j) (by omega) hjl
    have h7 : j - 0 = j := by omega
    rw [h7] at h6
    exact h6

/-- Witness for C7 at a concrete cell and the all-zero random stream:
rate 0 keeps the genome, rate 1 rewrites every locus. -/
theorem mutate_rate_extremes_witness :
    (∀ n : ℕ, 0 ≤ (fun _ : ℕ => (0 : ℝ)) n) ∧
    (∃ c' kk, wCell7.mutate 0 (fun _ => 0) 5 = some (c', kk) ∧
      c'.directions = wCell7.directions) ∧
    (∀ n : ℕ, (fun _ : ℕ => (0 : ℝ)) n < 1) ∧
    (∃ c' kk, wCell7.mutate 1 (fun _ => 0) 5 = some (c', kk) ∧
      c'.directions.length = wCell7.directions.length ∧
      ∀ j, j < wCell7.maxEnergy.toNat → j < wCell7.directions.length →
        c'.directions.get? j =
          some (Vector2D.fromAngle ((fun _ : ℕ => (0 : ℝ)) (5 + 3 * j + 2) * (2 * Real.pi)))) :=
  ⟨fun _ => le_refl 0,
    mutate_rate_extremes.1 wCell7 (fun _ => 0) 5 (fun _ => le_refl 0),
    fun _ => one_pos,
    mutate_rate_extremes.2 wCell7 (fun _ => 0) 5 (fun _ => one_pos)⟩

/-- C8: `getChild()` returns a child whose genome is element-wise the
parent's genome (of length `maxEnergy` under the genome-length
invariant), whose `minEnergy` is the parent's current energy, positioned
at the parent's start position, with velocity, acceleration, energy,
fitness and life state reset to their initial values. -/
theorem getChild_props (c : Cell) (rnd : ℕ → ℝ) (k : ℕ)
    (hlen : c.directions.length = c.maxEnergy.toNat) :
    (c.getChild rnd k).directions = c.directions ∧
    (c.getChild rnd k).directions.length = c.maxEnergy.toNat ∧
    (c.getChild rnd k).minEnergy = c.energy ∧
    (c.getChild rnd k).position = c.startPosition ∧
    (c.getChild rnd k).startPosition = c.startPosition ∧
    (c.getChild rnd k).velocity = ⟨0, 0⟩ ∧
    (c.getChild rnd k).acceleration = ⟨0, 0⟩ ∧
    (c.getChild rnd k).energy = c.maxEnergy - 1 ∧
    (c.getChild rnd k).maxEnergy = c.maxEnergy ∧
    (c.getChild rnd k).fitness = 0 ∧
    (c.getChild rnd k).isDead = false ∧
    (c.getChild rnd k).reachedGoal = false :=
  ⟨rfl, hlen, rfl, rfl, rfl, rfl, rfl, rfl, rfl, rfl, rfl, rfl⟩

/-- Witness for C8 at a concrete parent: the child keeps the genome,
takes `minEnergy = 1` (the parent's energy), and is fully reset. -/
theorem getChild_props_witness :
    wCell8.directions.length = wCell8.maxEnergy.toNat ∧
    (wCell8.getChild (fun _ => 0) 0).directions = wCell8.directions ∧
    (wCell8.getChild (fun _ => 0) 0).minEnergy = 1 ∧
    (wCell8.getChild (fun _ => 0) 0).energy = 2 ∧
    (wCell8.getChild (fun _ => 0) 0).position = wCell8.startPosition ∧
    (wCell8.getChild (fun _ => 0) 0).isDead = false := by
  have h := getChild_props wCell8 (fun _ => 0) 0 (by simp [wCell8])
  exact ⟨by simp [wCell8], h.1, h.2.2.1, h.2.2.2.2.2.2.2.1, h.2.2.2.1, h.2.2.2.2.2.2.2.2.2.2.1⟩

/-- C10: for a child produced by `getChild()` from a parent whose energy
satisfies the live-range invariant, every reserve index
`⌊r·(maxEnergy - minEnergy)⌋ + minEnergy` with `r ∈ [0, 1)` lies inside
`[0, maxEnergy)`, hence inside the genome; for a freshly constructed
cell, whose `minEnergy` equals `maxEnergy`, the reserve index equals
`maxEnergy` and the genome read at it is out of bounds. -/
theorem reserveIndex_bounds :
    (∀ (parent : Cell) (rnd : ℕ → ℝ) (k : ℕ) (r : ℝ),
      0 ≤ parent.energy → parent.energy ≤ parent.maxEnergy - 1 → 0 ≤ r → r < 1 →
      0 ≤ reserveIndex r (parent.getChild rnd k).minEnergy (parent.getChild rnd k).maxEnergy ∧
      reserveIndex r (parent.getChild rnd k).minEnergy (parent.getChild rnd k).maxEnergy <
        (parent.getChild rnd k).maxEnergy) ∧
    (∀ (pos : Vector2D) (E : ℤ) (rnd : ℕ → ℝ) (k : ℕ) (r : ℝ),
      (mkCell pos E rnd k).minEnergy = (mkCell pos E rnd k).maxEnergy ∧
      reserveIndex r (mkCell pos E rnd k).minEnergy (mkCell pos E rnd k).maxEnergy =
        (mkCell pos E rnd k).maxEnergy ∧
      (mkCell pos E rnd k).directions.get?
        (reserveIndex r (mkCell pos E rnd k).minEnergy (mkCell pos E rnd k).maxEnergy).toNat =
        none) := by
  constructor
  · intro parent rnd k r h0 h1 hr0 hr1
    have hm : (parent.getChild rnd k).minEnergy = parent.energy := rfl
    have hM : (parent.getChild rnd k).maxEnergy = parent.maxEnergy := rfl
    rw [hm, hM]
    unfold reserveIndex
    have hfl : ⌊r * ((parent.maxEnergy : ℝ) - (parent.energy : ℝ)) + (parent.energy : ℝ)⌋ =
        ⌊r * ((parent.maxEnergy : ℝ) - (parent.energy : ℝ))⌋ + parent.energy := by
      exact_mod_cast Int.floor_add_int (r * ((parent.maxEnergy : ℝ) - (parent.energy : ℝ)))
        parent.energy
    have hsub : (0 : ℝ) ≤ (parent.maxEnergy : ℝ) - (parent.energy : ℝ) := by
      have : (parent.energy : ℝ) ≤ (parent.maxEnergy : ℝ) := by exact_mod_cast (by omega :
        parent.energy ≤ parent.maxEnergy)
      linarith
    have hge : 0 ≤ ⌊r * ((parent.maxEnergy : ℝ) - (parent.energy : ℝ))⌋ :=
      Int.floor_nonneg.mpr (mul_nonneg hr0 hsub)
    have hlt : ⌊r * ((parent.maxEnergy : ℝ) - (parent.energy : ℝ))⌋ <
        parent.maxEnergy - parent.energy := by
      apply Int.floor_lt.mpr
      push_cast
      have hpos : (0 : ℝ) < (parent.maxEnergy : ℝ) - (parent.energy : ℝ) := by
        have h2 : parent.energy < parent.maxEnergy := by omega
        have h3 : (parent.energy : ℝ) < (parent.maxEnergy : ℝ) := by exact_mod_cast h2
        linarith
      nlinarith
    constructor
    · rw [hfl]; omega
    · rw [hfl]; omega
  · intro pos E rnd k r
    have hmin : (mkCell pos E rnd k).minEnergy = E := rfl
    have hmax : (mkCell pos E rnd k).maxEnergy = E := rfl
    rw [hmin, hmax]
    have hri : reserveIndex r E E = E := by
      unfold reserveIndex
      have hz : r * ((E : ℝ) - (E : ℝ)) + (E : ℝ) = (E : ℝ) := by ring
      rw [hz]
      exact Int.floor_intCast E
    refine ⟨rfl, hri, ?_⟩
    rw [hri]
    apply List.get?_eq_none.mpr
    simp [mkCell]

/-- Witness for C10 at a concrete parent with energy 1 of 3 and draw
`r = 1/2`: the child's reserve index is in `[0, 3)`, and for a freshly
constructed 3-gene cell the reserve read is out of bounds. -/
theorem reserveIndex_bounds_witness :
    (0 ≤ wCell10.energy ∧ wCell10.energy ≤ wCell10.maxEnergy - 1 ∧
      (0 : ℝ) ≤ 1 / 2 ∧ (1 / 2 : ℝ) < 1) ∧
    (0 ≤ reserveIndex (1 / 2)
        (wCell10.getChild (fun _ => 0) 0).minEnergy (wCell10.getChild (fun _ => 0) 0).maxEnergy ∧
      reserveIndex (1 / 2)
        (wCell10.getChild (fun _ => 0) 0).minEnergy (wCell10.getChild (fun _ => 0) 0).maxEnergy <
        (wCell10.getChild (fun _ => 0) 0).maxEnergy) ∧
    (mkCell ⟨50, 95⟩ 3 (fun _ => 0) 0).directions.get?
      (reserveIndex (1 / 2) (mkCell ⟨50, 95⟩ 3 (fun _ => 0) 0).minEnergy
        (mkCell ⟨50, 95⟩ 3 (fun _ => 0) 0).maxEnergy).toNat = none := by
  refine ⟨⟨by simp [wCell10], by simp [wCell10], by norm_num, by norm_num⟩, ?_, ?_⟩
  · exact reserveIndex_bounds.1 wCell10 (fun _ => 0) 0 (1 / 2) (by simp [wCell10])
      (by simp [wCell10]) (by norm_num) (by norm_num)
  · exact (reserveIndex_bounds.2 ⟨50, 95⟩ 3 (fun _ => 0) 0 (1 / 2)).2.2

/-- A vector has magnitude 0 exactly when it is the zero vector. -/
lemma magnitude_eq_zero_iff (v : Vector2D) : v.magnitude = 0 ↔ v = ⟨0, 0⟩ := by
  unfold Vector2D.magnitude
  constructor
  · intro hz
    have hnn : 0 ≤ v.x * v.x + v.y * v.y :=
      add_nonneg (mul_self_nonneg v.x) (mul_self_nonneg v.y)
    have h0 : v.x * v.x + v.y * v.y = 0 := (Real.sqrt_eq_zero hnn).mp hz
    have hx : v.x = 0 := by nlinarith [mul_self_nonneg v.x, mul_self_nonneg v.y]
    have hy : v.y = 0 := by nlinarith [mul_self_nonneg v.x, mul_self_nonneg v.y]
    cases v
    simp_all
  · rintro rfl
    simp

/-- Normalizing a vector of nonzero magnitude succeeds and produces a
unit vector. -/
lemma normalize_magnitude (v : Vector2D) (hv : v.magnitude ≠ 0) :
    ∃ u, v.normalize = some u ∧ u.magnitude = 1 := by
  unfold Vector2D.normalize
  rw [if_neg hv]
  refine ⟨_, rfl, ?_⟩
  unfold Vector2D.magnitude at hv ⊢
  have hnn : 0 ≤ v.x * v.x + v.y * v.y :=
    add_nonneg (mul_self_nonneg v.x) (mul_self_nonneg v.y)
  have hm2 : Real.sqrt (v.x * v.x + v.y * v.y) * Real.sqrt (v.x * v.x + v.y * v.y) =
      v.x * v.x + v.y * v.y := Real.mul_self_sqrt hnn
  have hne : v.x * v.x + v.y * v.y ≠ 0 := by
    intro h0
    exact hv (by rw [h0, Real.sqrt_zero])
  have h1 : v.x / Real.sqrt (v.x * v.x + v.y * v.y) * (v.x / Real.sqrt (v.x * v.x + v.y * v.y)) +
      v.y / Real.sqrt (v.x * v.x + v.y * v.y) * (v.y / Real.sqrt (v.x * v.x + v.y * v.y)) =
      (v.x * v.x + v.y * v.y) /
        (Real.sqrt (v.x * v.x + v.y * v.y) * Real.sqrt (v.x * v.x + v.y * v.y)) := by
    ring
  rw [h1, hm2, div_self hne, Real.sqrt_one]

/-- Scaling multiplies the magnitude by the absolute scale factor. -/
lemma multiply_magnitude (u : Vector2D) (s : ℝ) :
    (u.multiply s).magnitude = |s| * u.magnitude := by
  unfold Vector2D.multiply Vector2D.magnitude
  have h1 : u.x * s * (u.x * s) + u.y * s * (u.y * s) = s * s * (u.x * u.x + u.y * u.y) := by
    ring
  rw [h1, Real.sqrt_mul (mul_self_nonneg s), Real.sqrt_mul_self_eq_abs]

/-- C9: for a cell whose genome is made of unit vectors and whose
velocity is the zero vector or has magnitude equal to its speed of 5,
the vector handed to `normalize` inside `move()` — the velocity plus the
genome acceleration — never has magnitude 0, so the zero-vector error
branch of `normalize` is unreachable; `move` then succeeds (given a
valid genome index) and re-establishes the velocity invariant; and a
freshly constructed cell satisfies the hypotheses. -/
theorem move_normalize_safe (c : Cell)
    (hdir : ∀ v ∈ c.directions, v.magnitude = 1)
    (hvel : c.velocity = ⟨0, 0⟩ ∨ c.velocity.magnitude = c.speed)
    (hspeed : c.speed = 5) :
    (∀ a ∈ c.directions, (c.velocity.add a).magnitude ≠ 0) ∧
    (0 ≤ c.energy → c.energy.toNat < c.directions.length →
      ∃ m, c.move = some m ∧ m.velocity.magnitude = m.speed ∧ m.speed = 5 ∧
        ∀ v ∈ m.directions, v.magnitude = 1) ∧
    (∀ pos E rnd k,
      (mkCell pos E rnd k).velocity = ⟨0, 0⟩ ∧ (mkCell pos E rnd k).speed = 5 ∧
      ∀ v ∈ (mkCell pos E rnd k).directions, v.magnitude = 1) := by
  have key : ∀ a ∈ c.directions, (c.velocity.add a).magnitude ≠ 0 := by
    intro a ha h0
    have h1 := (magnitude_eq_zero_iff _).mp h0
    have hax : c.velocity.x + a.x = 0 := congrArg Vector2D.x h1
    have hay : c.velocity.y + a.y = 0 := congrArg Vector2D.y h1
    have hmag : a.magnitude = c.velocity.magnitude := by
      have hax' : a.x = -c.velocity.x := by linarith
      have hay' : a.y = -c.velocity.y := by linarith
      unfold Vector2D.magnitude
      rw [hax', hay']
      congr 1
      ring
    have ha1 : a.magnitude = 1 := hdir a ha
    rcases hvel with hz | h5
    · rw [hz] at hmag
      rw [ha1] at hmag
      have : (Vector2D.mk 0 0).magnitude = 0 := by
        unfold Vector2D.magnitude
        norm_num
      rw [this] at hmag
      norm_num at hmag
    · rw [h5, hspeed] at hmag
      rw [ha1] at hmag
      norm_num at hmag
  refine ⟨key, ?_, ?_⟩
  · intro hE hlen
    have hmem : c.directions.get ⟨c.energy.toNat, hlen⟩ ∈ c.directions := List.get_mem _ _ _
    obtain ⟨u, hu, hu1⟩ :=
      normalize_magnitude (c.velocity.add (c.directions.get ⟨c.energy.toNat, hlen⟩))
        (key _ hmem)
    have hmove : c.move = some
        { c with
          acceleration := c.directions.get ⟨c.energy.toNat, hlen⟩
          velocity := u.multiply c.speed
          position := c.position.add (u.multiply c.speed) } := by
      unfold Cell.move
      rw [dif_pos ⟨hE, hlen⟩, hu, Option.map_some']
    refine ⟨_, hmove, ?_, hspeed, hdir⟩
    show (u.multiply c.speed).magnitude = c.speed
    rw [multiply_magnitude, hu1, mul_one, hspeed]
    norm_num
  · intro pos E rnd k
    refine ⟨rfl, rfl, ?_⟩
    intro v hv
    simp only [mkCell, List.mem_map] at hv
    obtain ⟨i, _, rfl⟩ := hv
    unfold Vector2D.fromAngle Vector2D.magnitude
    have h2 : Real.cos (rnd (k + i) * (2 * Real.pi)) * Real.cos (rnd (k + i) * (2 * Real.pi)) +
        Real.sin (rnd (k + i) * (2 * Real.pi)) * Real.sin (rnd (k + i) * (2 * Real.pi)) = 1 := by
      have h3 := Real.sin_sq_add_cos_sq (rnd (k + i) * (2 * Real.pi))
      nlinarith
    rw [h2, Real.sqrt_one]

/-- Witness for C9 at a concrete resting cell: the vector handed to
`normalize` is nonzero and `move` succeeds with speed-5 velocity. -/
theorem move_normalize_safe_witness :
    (∀ v ∈ wCell9.directions, v.magnitude = 1) ∧
    (wCell9.velocity = ⟨0, 0⟩ ∨ wCell9.velocity.magnitude = wCell9.speed) ∧
    wCell9.speed = 5 ∧
    (∀ a ∈ wCell9.directions, (wCell9.velocity.add a).magnitude ≠ 0) ∧
    (∃ m, wCell9.move = some m ∧ m.velocity.magnitude = m.speed) := by
  have hdir : ∀ v ∈ wCell9.directions, v.magnitude = 1 := by
    intro v hv
    have hv1 : v = Vector2D.mk 1 0 := by simpa [wCell9] using hv
    rw [hv1]
    unfold Vector2D.magnitude
    norm_num
  have h := move_normalize_safe wCell9 hdir (Or.inl rfl) rfl
  obtain ⟨m, hm, hmv, _, _⟩ := h.2.1 (by norm_num [wCell9]) (by norm_num [wCell9])
  exact ⟨hdir, Or.inl rfl, rfl, h.1, ⟨m, hm, hmv⟩⟩

/-- A successful scan returns a member of the scanned list. -/
lemma selectLoop_mem : ∀ (n : ℕ) (r : ℝ) (cells : List Cell) (c : Cell),
    selectLoop r n cells = some c → c ∈ cells := by
  intro n
  induction n with
  | zero => intro r cells c hc; exact absurd hc (by simp [selectLoop])
  | succ n ih =>
    intro r cells c hc
    match cells with
    | [] => exact absurd hc (by simp [selectLoop])
    | c0 :: rest =>
      rw [selectLoop] at hc
      split at hc
      · obtain ⟨rfl⟩ := Option.some_inj.mp hc
        exact List.mem_cons_self _ _
      · exact List.mem_cons_of_mem _ (ih _ rest c hc)

/-- With a draw below the exact fitness sum and all fitness values
positive, the scan finds a crossing before exhausting. -/
lemma selectLoop_finds : ∀ (cells : List Cell) (r : ℝ), 0 ≤ r → r < sumFit cells →
    (∀ c ∈ cells, 0 < c.fitness) →
    ∃ c ∈ cells, selectLoop r cells.length cells = some c := by
  intro cells
  induction cells with
  | nil =>
    intro r h0 hs _
    rw [sumFit] at hs
    simp at hs
    linarith
  | cons c0 rest ih =>
    intro r h0 hs hpos
    by_cases hc : r - c0.fitness ≤ 0
    · exact ⟨c0, List.mem_cons_self _ _, by rw [List.length_cons, selectLoop, if_pos hc]⟩
    · push_neg at hc
      have hs' : r - c0.fitness < sumFit rest := by
        rw [sumFit] at hs ⊢
        simp only [List.map_cons, List.sum_cons] at hs
        linarith
      obtain ⟨c, hcm, hcl⟩ := ih (r - c0.fitness) (le_of_lt hc) hs'
        (fun c hmem => hpos c (List.mem_cons_of_mem _ hmem))
      refine ⟨c, List.mem_cons_of_mem _ hcm, ?_⟩
      rw [List.length_cons, selectLoop, if_neg (not_le.mpr hc)]
      exact hcl

/-- For a nonempty collection, `selectParent` always returns some cell
of the collection, whatever the draw and loop bound. -/
lemma selectParent_mem (r : ℝ) (n : ℕ) (c0 : Cell) (rest : List Cell) :
    ∃ c ∈ c0 :: rest, selectParent r n (c0 :: rest) = some c := by
  unfold selectParent
  match h : selectLoop r n (c0 :: rest) with
  | some c => exact ⟨c, selectLoop_mem n r _ c h, rfl⟩
  | none => exact ⟨c0, List.mem_cons_self _ _, rfl⟩

/-- C2 (amended): with all fitness values strictly positive and the
draw below the exact fitness sum, `selectParent` returns some cell of
the population after a successful crossing; and in the defensive case
where the scan exhausts without a ≤0 crossing it returns the FIRST cell
of the collection (`this.cells[0]`), not the last. -/
theorem selectParent_total :
    (∀ (r : ℝ) (cells : List Cell), 0 ≤ r → r < sumFit cells →
      (∀ c ∈ cells, 0 < c.fitness) →
      ∃ c ∈ cells, selectLoop r cells.length cells = some c ∧
        selectParent r cells.length cells = some c) ∧
    (∀ (r : ℝ) (n : ℕ) (c0 : Cell) (rest : List Cell),
      selectLoop r n (c0 :: rest) = none →
      selectParent r n (c0 :: rest) = some c0) := by
  constructor
  · intro r cells h0 hs hpos
    obtain ⟨c, hcm, hcl⟩ := selectLoop_finds cells r h0 hs hpos
    refine ⟨c, hcm, hcl, ?_⟩
    unfold selectParent
    rw [hcl]
  · intro r n c0 rest hnone
    unfold selectParent
    rw [hnone]
    rfl

/-- Counterexample to C2 as stated: on the two-cell collection with
fitness values 1 and 2 and a draw of 4, the subtraction scan exhausts
all cells without the running value becoming ≤ 0, and `selectParent`
returns the FIRST cell, which is not the last cell of the collection. -/
theorem selectParent_exhaust_returns_first :
    selectLoop 4 2 [wCell2A, wCell2B] = none ∧
    selectParent 4 2 [wCell2A, wCell2B] = some wCell2A ∧
    [wCell2A, wCell2B].getLast? = some wCell2B ∧
    wCell2A ≠ wCell2B := by
  have h1 : selectLoop 4 2 [wCell2A, wCell2B] = none := by
    rw [selectLoop, if_neg (by norm_num [wCell2A]), selectLoop,
      if_neg (by norm_num [wCell2A, wCell2B])]
    rfl
  refine ⟨h1, ?_, rfl, ?_⟩
  · unfold selectParent
    rw [h1]
    rfl
  · intro hab
    have h2 := congrArg Cell.fitness hab
    rw [wCell2A, wCell2B] at h2
    norm_num at h2

/-- Witness for the amended C2 at a concrete draw 5/2 below the sum 3:
the scan crosses and the returned cell belongs to the collection. -/
theorem selectParent_total_witness :
    ((0 : ℝ) ≤ 5 / 2 ∧ (5 / 2 : ℝ) < sumFit [wCell2A, wCell2B] ∧
      (∀ c ∈ [wCell2A, wCell2B], 0 < c.fitness)) ∧
    (∃ c ∈ [wCell2A, wCell2B], selectLoop (5 / 2) 2 [wCell2A, wCell2B] = some c ∧
      selectParent (5 / 2) 2 [wCell2A, wCell2B] = some c) := by
  have hs : (5 / 2 : ℝ) < sumFit [wCell2A, wCell2B] := by
    rw [sumFit]
    norm_num [wCell2A, wCell2B]
  have hpos : ∀ c ∈ [wCell2A, wCell2B], 0 < c.fitness := by
    intro c hc
    rcases List.mem_pair.mp hc with rfl | rfl
    · rw [wCell2A]; norm_num
    · rw [wCell2B]; norm_num
  exact ⟨⟨by norm_num, hs, hpos⟩,
    selectParent_total.1 (5 / 2) [wCell2A, wCell2B] (by norm_num) hs hpos⟩

/-- The method `calcFitness` changes only the `fitness` field. -/
lemma calcFitness_fields (c : Cell) (goal : Bacteria) :
    (c.calcFitness goal).position = c.position ∧
    (c.calcFitness goal).startPosition = c.startPosition ∧
    (c.calcFitness goal).velocity = c.velocity ∧
    (c.calcFitness goal).acceleration = c.acceleration ∧
    (c.calcFitness goal).directions = c.directions ∧
    (c.calcFitness goal).energy = c.energy ∧
    (c.calcFitness goal).minEnergy = c.minEnergy ∧
    (c.calcFitness goal).maxEnergy = c.maxEnergy ∧
    (c.calcFitness goal).isDead = c.isDead ∧
    (c.calcFitness goal).reachedGoal = c.reachedGoal := by
  unfold Cell.calcFitness
  split <;> exact ⟨rfl, rfl, rfl, rfl, rfl, rfl, rfl, rfl, rfl, rfl⟩

/-- Running `fitnessSum` over exactly the collection's length recomputes every
cell's fitness and returns the updated collection and the exact sum. -/
lemma fitnessSumGo_spec (goal : Bacteria) :
    ∀ cells : List Cell,
      fitnessSumGo goal cells.length cells =
        some (cells.map (fun c => c.calcFitness goal),
          sumFit (cells.map fun c => c.calcFitness goal)) := by
  intro cells
  induction cells with
  | nil => simp [fitnessSumGo, sumFit]
  | cons c rest ih =>
    rw [List.length_cons, fitnessSumGo, ih]
    simp [sumFit]

/-- The reserve index `⌊r·(maxE - minE)⌋ + minE` lands in `[0, maxE)`
whenever `0 ≤ minE < maxE` and the draw is in `[0, 1)`. -/
lemma reserveIndex_range (r : ℝ) (minE maxE : ℤ) (hm0 : 0 ≤ minE) (hlt : minE < maxE)
    (hr0 : 0 ≤ r) (hr1 : r < 1) :
    0 ≤ reserveIndex r minE maxE ∧ reserveIndex r minE maxE < maxE := by
  unfold reserveIndex
  have hfl : ⌊r * ((maxE : ℝ) - (minE : ℝ)) + (minE : ℝ)⌋ =
      ⌊r * ((maxE : ℝ) - (minE : ℝ))⌋ + minE := by
    exact_mod_cast Int.floor_add_int (r * ((maxE : ℝ) - (minE : ℝ))) minE
  have hsub : (0 : ℝ) ≤ (maxE : ℝ) - (minE : ℝ) := by
    have h2 : (minE : ℝ) ≤ (maxE : ℝ) := by exact_mod_cast le_of_lt hlt
    linarith
  have hge : 0 ≤ ⌊r * ((maxE : ℝ) - (minE : ℝ))⌋ :=
    Int.floor_nonneg.mpr (mul_nonneg hr0 hsub)
  have hflt : ⌊r * ((maxE : ℝ) - (minE : ℝ))⌋ < maxE - minE := by
    apply Int.floor_lt.mpr
    push_cast
    have hpos : (0 : ℝ) < (maxE : ℝ) - (minE : ℝ) := by
      have h3 : (minE : ℝ) < (maxE : ℝ) := by exact_mod_cast hlt
      linarith
    nlinarith
  constructor
  · rw [hfl]; omega
  · rw [hfl]; omega

/-- Under the live-range conditions the per-locus loop of `mutate`
always succeeds: every reserve read stays inside the genome. -/
lemma mutateLoop_isSome (rate : ℝ) (minE maxE : ℤ) (rnd : ℕ → ℝ)
    (hrnd : ∀ n, 0 ≤ rnd n ∧ rnd n < 1) (hm0 : 0 ≤ minE) (hlt : minE < maxE) :
    ∀ (l : List ℕ) (dirs : List Vector2D) (k cnt : ℕ), dirs.length = maxE.toNat →
      ∃ dirs' kk cc, mutateLoop rate minE maxE rnd l dirs k cnt = some (dirs', kk, cc) ∧
        dirs'.length = maxE.toNat := by
  intro l
  induction l with
  | nil => intro dirs k cnt hl; exact ⟨dirs, k, cnt, rfl, hl⟩
  | cons i rest ih =>
    intro dirs k cnt hl
    rw [mutateLoop]
    split
    · split
      · exact ih _ _ _ (by rw [List.length_set]; exact hl)
      · have hidx := reserveIndex_range (rnd (k + 2)) minE maxE hm0 hlt
          (hrnd (k + 2)).1 (hrnd (k + 2)).2
        have hcond : 0 ≤ reserveIndex (rnd (k + 2)) minE maxE ∧
            (reserveIndex (rnd (k + 2)) minE maxE).toNat < dirs.length := by
          refine ⟨hidx.1, ?_⟩
          rw [hl]
          omega
        rw [dif_pos hcond]
        exact ih _ _ _ (by rw [List.length_set]; exact hl)
    · exact ih _ _ _ hl

/-- Under the live-range conditions `mutate` succeeds and changes only
the genome contents (keeping its length) and the color. -/
lemma mutate_isSome (c : Cell) (rate : ℝ) (rnd : ℕ → ℝ) (k : ℕ)
    (hrnd : ∀ n, 0 ≤ rnd n ∧ rnd n < 1) (hm0 : 0 ≤ c.minEnergy)
    (hlt : c.minEnergy < c.maxEnergy) (hlen : c.directions.length = c.maxEnergy.toNat) :
    ∃ c' kk, c.mutate rate rnd k = some (c', kk) ∧
      c'.position = c.position ∧ c'.startPosition = c.startPosition ∧
      c'.velocity = c.velocity ∧ c'.acceleration = c.acceleration ∧
      c'.energy = c.energy ∧ c'.minEnergy = c.minEnergy ∧ c'.maxEnergy = c.maxEnergy ∧
      c'.fitness = c.fitness ∧ c'.isDead = c.isDead ∧ c'.reachedGoal = c.reachedGoal ∧
      c'.directions.length = c.directions.length := by
  obtain ⟨dirs', kk, cc, hloop, hlen'⟩ :=
    mutateLoop_isSome rate c.minEnergy c.maxEnergy rnd hrnd hm0 hlt
      (List.range c.maxEnergy.toNat) c.directions k 0 hlen
  refine ⟨{ c with
      directions := dirs'
      color := rgbToHex ⌊(255 : ℝ) * (1 - (cc : ℝ) / (c.maxEnergy : ℝ))⌋
        ⌊(255 : ℝ) * (1 - (cc : ℝ) / (c.maxEnergy : ℝ))⌋
        ⌊(255 : ℝ) * (1 - (cc : ℝ) / (c.maxEnergy : ℝ))⌋ }, kk,
    ?_, rfl, rfl, rfl, rfl, rfl, rfl, rfl, rfl, rfl, rfl, ?_⟩
  · unfold Cell.mutate
    rw [hloop]
  · dsimp only
    rw [hlen', hlen]

/-- Totality: `selectParent` on a nonempty collection always returns a member. -/
lemma selectParent_mem' (r : ℝ) (n : ℕ) (cells : List Cell) (hne : cells ≠ []) :
    ∃ c ∈ cells, selectParent r n cells = some c := by
  match cells with
  | [] => exact absurd rfl hne
  | c0 :: rest => exact selectParent_mem r n c0 rest

/-- The main induction for `evolve`'s child loop: with good cells, a
correct length and index bookkeeping, the loop succeeds, preserves the
collection's length, goodness and start positions, keeps the fittest
index in range, and appends exactly `j` freshly spawned children. -/
lemma evolveLoop_spec (goal : Bacteria) (rate : ℝ) (size : ℕ) (rnd : ℕ → ℝ)
    (sps : List Vector2D) (hrnd : ∀ n, 0 ≤ rnd n ∧ rnd n < 1) :
    ∀ (j i : ℕ) (cells : List Cell) (fit : ℝ) (fittest : Option ℕ) (acc : List Cell) (k : ℕ),
      cells.length = size → i + j ≤ size →
      (∀ c ∈ cells, GoodCell c) →
      cells.map Cell.startPosition = sps →
      (∀ t, fittest = some t → t < size) →
      ∃ cellsF fitF fittestF accF kF,
        evolveLoop goal rate size rnd j i cells fit fittest acc k =
          some (cellsF, fitF, fittestF, accF, kF) ∧
        cellsF.length = size ∧
        (∀ c ∈ cellsF, GoodCell c) ∧
        cellsF.map Cell.startPosition = sps ∧
        (∀ t, fittestF = some t → t < size) ∧
        accF.length = acc.length + j ∧
        (∀ c ∈ accF, c ∈ acc ∨ SpawnedCell sps c) := by
  intro j
  induction j with
  | zero =>
    intro i cells fit fittest acc k h1 _ h3 h4 h5
    exact ⟨cells, fit, fittest, acc, k, rfl, h1, h3, h4, h5, by omega,
      fun c hc => Or.inl hc⟩
  | succ j ih =>
    intro i cells fit fittest acc k hlen hij hgood hsps hftt
    have hi : i < cells.length := by omega
    have hget : cells.get? i = some (cells.get ⟨i, hi⟩) := List.get?_eq_get hi
    have hsum := fitnessSumGo_spec goal cells
    rw [hlen] at hsum
    have hne : cells.map (fun c => c.calcFitness goal) ≠ [] := by
      intro hnil
      have := congrArg List.length hnil
      simp only [List.length_map, List.length_nil] at this
      omega
    obtain ⟨parent, hpm, hps⟩ := selectParent_mem'
      (rnd k * sumFit (cells.map fun c => c.calcFitness goal)) size
      (cells.map fun c => c.calcFitness goal) hne
    obtain ⟨pc, hpc, hpcalc⟩ := List.mem_map.mp hpm
    have hpgood : GoodCell parent := by
      obtain ⟨h1, h2, h3, h4⟩ := hgood pc hpc
      obtain ⟨_, _, _, _, hdir, hE, _, hM, _, _⟩ := calcFitness_fields pc goal
      rw [← hpcalc]
      exact ⟨by rw [hM]; exact h1, by rw [hE]; exact h2, by rw [hE, hM]; exact h3,
        by rw [hdir, hM]; exact h4⟩
    have hchild := mutate_isSome (parent.getChild rnd (k + 1)) rate rnd
      (k + 1 + parent.maxEnergy.toNat) hrnd
      (show (0 : ℤ) ≤ parent.energy from hpgood.2.1)
      (show parent.energy < parent.maxEnergy by
        have := hpgood.2.2.1
        omega)
      (show parent.directions.length = parent.maxEnergy.toNat from hpgood.2.2.2)
    obtain ⟨child, kk, hmut, hcpos, hcsp, hcv, hca, hcE, hcmin, hcmax, hcfit, hcdead,
      hcreach, _⟩ := hchild
    have hmapgood : ∀ c ∈ cells.map (fun c => c.calcFitness goal), GoodCell c := by
      intro c hc
      obtain ⟨c0, hc0, rfl⟩ := List.mem_map.mp hc
      obtain ⟨h1, h2, h3, h4⟩ := hgood c0 hc0
      obtain ⟨_, _, _, _, hdir, hE, _, hM, _, _⟩ := calcFitness_fields c0 goal
      exact ⟨by rw [hM]; exact h1, by rw [hE]; exact h2, by rw [hE, hM]; exact h3,
        by rw [hdir, hM]; exact h4⟩
    have hmapsps : (cells.map fun c => c.calcFitness goal).map Cell.startPosition = sps := by
      rw [List.map_map, ← hsps]
      apply List.map_congr_left
      intro c _
      exact (calcFitness_fields c goal).2.1
    obtain ⟨cellsF, fitF, fittestF, accF, kF, hloop, hlenF, hgoodF, hspsF, hfttF,
      haccLen, haccMem⟩ :=
      ih (i + 1) (cells.map fun c => c.calcFitness goal)
        (sumFit (cells.map fun c => c.calcFitness goal))
        (if (cells.get ⟨i, hi⟩).fitness > curFit cells fittest then some i else fittest)
        (acc ++ [child]) kk
        (by rw [List.length_map]; exact hlen) (by omega) hmapgood hmapsps
        (by
          intro t ht
          split at ht
          · obtain ⟨rfl⟩ := Option.some_inj.mp ht
            omega
          · exact hftt t ht)
    refine ⟨cellsF, fitF, fittestF, accF, kF, ?_, hlenF, hgoodF, hspsF, hfttF, ?_, ?_⟩
    · rw [evolveLoop, hget]
      dsimp only
      rw [hsum]
      dsimp only
      rw [hps]
      dsimp only
      rw [hmut]
      exact hloop
    · rw [haccLen, List.length_append]
      simp
      omega
    · intro c hc
      rcases haccMem c hc with hmem | hsp
      · rcases List.mem_append.mp hmem with h | h
        · exact Or.inl h
        · right
          have hc' : c = child := by
            rcases List.mem_singleton.mp h with rfl
            rfl
          subst hc'
          have hstart : c.startPosition = parent.startPosition := hcsp
          have hmemsps : parent.startPosition ∈ sps := by
            rw [← hmapsps]
            exact List.mem_map_of_mem Cell.startPosition hpm
          refine ⟨hcdead, hcreach, hcv, hca, hcfit, ?_, ?_, ?_, by rw [hstart]; exact hmemsps⟩
          · rw [hcE, hcmax]
            rfl
          · rw [hcmax]
            exact hpgood.1
          · rw [hcpos, hcsp]
            rfl
      · exact Or.inr hsp

/-- Member properties of the final collection `children ++ [elite]`
assembled by `evolve`, given spawn facts for the children and reset
facts for the elite. -/
lemma evolveCells_props (accF : List Cell) (sps : List Vector2D) (e : Cell)
    (haccMem : ∀ c ∈ accF, c ∈ ([] : List Cell) ∨ SpawnedCell sps c)
    (he : e.isDead = false ∧ e.reachedGoal = false ∧ e.velocity = ⟨0, 0⟩ ∧
      e.acceleration = ⟨0, 0⟩ ∧ e.fitness = 0 ∧ e.energy = e.maxEnergy - 1 ∧
      e.position = e.startPosition) :
    (∀ c ∈ accF ++ [e], c.isDead = false ∧ c.reachedGoal = false ∧
      c.velocity = ⟨0, 0⟩ ∧ c.acceleration = ⟨0, 0⟩ ∧ c.fitness = 0 ∧
      c.energy = c.maxEnergy - 1 ∧ c.position = c.startPosition) ∧
    (∀ c ∈ (accF ++ [e]).dropLast, 1 ≤ c.maxEnergy ∧ c.startPosition ∈ sps) := by
  constructor
  · intro c hc
    rcases List.mem_append.mp hc with h | h
    · rcases haccMem c h with h0 | hsp
      · exact absurd h0 (List.not_mem_nil c)
      · exact ⟨hsp.1, hsp.2.1, hsp.2.2.1, hsp.2.2.2.1, hsp.2.2.2.2.1, hsp.2.2.2.2.2.1,
          hsp.2.2.2.2.2.2.2.1⟩
    · rcases List.mem_singleton.mp h with rfl
      exact he
  · rw [List.dropLast_concat]
    intro c hc
    rcases haccMem c hc with h0 | hsp
    · exact absurd h0 (List.not_mem_nil c)
    · exact ⟨hsp.2.2.2.2.2.2.1, hsp.2.2.2.2.2.2.2.2⟩

/-- C6 (amended): for every population of size ≥ 1 whose cells satisfy
the live-range invariant, `evolve` succeeds and installs exactly `size`
cells — `size - 1` mutated children plus one elite clone — all ALIVE at
their own start position with full initial energy for their genome; and
every child (every cell but the last) has a nonempty genome and starts
at the start position of some outgoing cell. -/
theorem evolve_size_amended (p : Population) (rnd : ℕ → ℝ) (k : ℕ)
    (hrnd : ∀ n, 0 ≤ rnd n ∧ rnd n < 1)
    (hlen : p.cells.length = p.size) (hsz : 1 ≤ p.size)
    (hgood : ∀ c ∈ p.cells, GoodCell c) :
    ∃ p' kk, p.evolve rnd k = some (p', kk) ∧
      p'.cells.length = p.size ∧
      (∀ c ∈ p'.cells, c.isDead = false ∧ c.reachedGoal = false ∧
        c.velocity = ⟨0, 0⟩ ∧ c.acceleration = ⟨0, 0⟩ ∧ c.fitness = 0 ∧
        c.energy = c.maxEnergy - 1 ∧ c.position = c.startPosition) ∧
      (∀ c ∈ p'.cells.dropLast, 1 ≤ c.maxEnergy ∧
        c.startPosition ∈ p.cells.map Cell.startPosition) := by
  obtain ⟨cellsF, fitF, fittestF, accF, kF, hloop, hlenF, hgoodF, hspsF, hfttF,
    haccLen, haccMem⟩ :=
    evolveLoop_spec p.goal p.mutationRate p.size rnd (p.cells.map Cell.startPosition) hrnd
      (p.size - 1) 0 p.cells p.fitness none [] k hlen (by omega) hgood rfl
      (by intro t ht; exact absurd ht (by simp))
  have haccLen' : accF.length = p.size - 1 := by simpa using haccLen
  unfold Population.evolve
  rw [hloop]
  cases fittestF with
  | none =>
    dsimp only
    obtain ⟨hall, hdl⟩ := evolveCells_props accF (p.cells.map Cell.startPosition)
      { dummyCell.clone rnd kF with color := "#000000" } haccMem
      ⟨rfl, rfl, rfl, rfl, rfl, rfl, rfl⟩
    refine ⟨_, _, rfl, ?_, hall, hdl⟩
    rw [List.length_append]
    simp only [List.length_singleton]
    omega
  | some j =>
    have hj : j < p.size := hfttF j rfl
    have hj' : j < cellsF.length := by omega
    dsimp only
    rw [List.get?_eq_get hj']
    dsimp only
    obtain ⟨hall, hdl⟩ := evolveCells_props accF (p.cells.map Cell.startPosition)
      { (cellsF.get ⟨j, hj'⟩).clone rnd kF with color := "#000000" } haccMem
      ⟨rfl, rfl, rfl, rfl, rfl, rfl, rfl⟩
    refine ⟨_, _, rfl, ?_, hall, hdl⟩
    rw [List.length_append]
    simp only [List.length_singleton]
    omega

/-- Witness for the amended C6 at a concrete one-cell population and
the all-zero random stream. -/
theorem evolve_size_amended_witness :
    ((∀ n : ℕ, 0 ≤ (fun _ : ℕ => (0 : ℝ)) n ∧ (fun _ : ℕ => (0 : ℝ)) n < 1) ∧
      wPop6.cells.length = wPop6.size ∧ 1 ≤ wPop6.size ∧
      (∀ c ∈ wPop6.cells, GoodCell c)) ∧
    (∃ p' kk, wPop6.evolve (fun _ => 0) 3 = some (p', kk) ∧
      p'.cells.length = wPop6.size ∧
      (∀ c ∈ p'.cells, c.isDead = false ∧ c.reachedGoal = false ∧
        c.velocity = ⟨0, 0⟩ ∧ c.acceleration = ⟨0, 0⟩ ∧ c.fitness = 0 ∧
        c.energy = c.maxEnergy - 1 ∧ c.position = c.startPosition) ∧
      (∀ c ∈ p'.cells.dropLast, 1 ≤ c.maxEnergy ∧
        c.startPosition ∈ wPop6.cells.map Cell.startPosition)) := by
  have h1 : ∀ n : ℕ, 0 ≤ (fun _ : ℕ => (0 : ℝ)) n ∧ (fun _ : ℕ => (0 : ℝ)) n < 1 :=
    fun _ => ⟨le_refl 0, one_pos⟩
  have hgood : ∀ c ∈ wPop6.cells, GoodCell c := by
    intro c hc
    have hc6 : c = wCell6 := by simpa [wPop6] using hc
    subst hc6
    unfold GoodCell
    refine ⟨?_, ?_, ?_, ?_⟩ <;> simp [wCell6]
  exact ⟨⟨h1, rfl, by norm_num [wPop6], hgood⟩,
    evolve_size_amended wPop6 (fun _ => 0) 3 h1 rfl (by norm_num [wPop6]) hgood⟩

/-- C1 evidence: on the two-cell population, the elite appended as the
final member of the new generation is a clone of the throwaway dummy
(no genes, `maxEnergy = 0`), while the fittest cell of the outgoing
generation under the spec's linear scan over the computed fitness is
the two-gene cell — so the installed elite is not an unmutated clone of
the fittest cell, and the fittest genome is lost entirely. -/
theorem evolve_elite_misses_fittest :
    ((wPopC1.evolve (fun _ => 0) 0).map fun pk => pk.1.cells.map Cell.maxEnergy) =
      some [1, 0] ∧
    ((wPopC1.evolve (fun _ => 0) 0).map fun pk =>
      pk.1.cells.map fun c => c.directions.length) = some [1, 0] ∧
    ((fitnessSumGo wPopC1.goal wPopC1.size wPopC1.cells).map fun cs =>
      (specFittest cs.1).map fun b => (b.maxEnergy, b.directions.length)) =
      some (some (2, 2)) := by
  refine ⟨?_, ?_, ?_⟩
  · norm_num [wPopC1, wCellC1a, wCellC1b, Population.evolve, evolveLoop, fitnessSumGo,
      Cell.calcFitness, goalMinDist, selectParent, selectLoop, curFit, Cell.mutate,
      mutateLoop, Cell.getChild, Cell.clone, mkCell, dummyCell, List.range_succ]
  · norm_num [wPopC1, wCellC1a, wCellC1b, Population.evolve, evolveLoop, fitnessSumGo,
      Cell.calcFitness, goalMinDist, selectParent, selectLoop, curFit, Cell.mutate,
      mutateLoop, Cell.getChild, Cell.clone, mkCell, dummyCell, List.range_succ]
  · norm_num [wPopC1, wCellC1a, wCellC1b, fitnessSumGo, Cell.calcFitness, goalMinDist,
      specFittest]

/-- Counterexample to C6 as stated: on the two-cell population whose
fixed start position is `(100, 100)`, the replacement collection's
final member (the elite) sits at `(0, 0)`, not the start position, and
carries energy `-1` rather than full initial energy; and on a size-0
population `evolve` installs one cell, not zero. -/
theorem evolve_reinit_counterexample :
    ((wPopC6.evolve (fun _ => 0) 0).map fun pk => pk.1.cells.map Cell.position) =
      some [⟨100, 100⟩, ⟨0, 0⟩] ∧
    ((wPopC6.evolve (fun _ => 0) 0).map fun pk => pk.1.cells.map Cell.energy) =
      some [0, -1] ∧
    wPopC6.cells.map Cell.startPosition = [⟨100, 100⟩, ⟨100, 100⟩] ∧
    (Vector2D.mk 0 0) ≠ (Vector2D.mk 100 100) ∧
    ((wPopC6z.evolve (fun _ => 0) 0).map fun pk => pk.1.cells.length) = some 1 ∧
    wPopC6z.size = 0 := by
  refine ⟨?_, ?_, ?_, ?_, ?_, rfl⟩
  · norm_num [wPopC6, wCellC6a, wCellC6b, Population.evolve, evolveLoop, fitnessSumGo,
      Cell.calcFitness, goalMinDist, selectParent, selectLoop, curFit, Cell.mutate,
      mutateLoop, Cell.getChild, Cell.clone, mkCell, dummyCell, List.range_succ]
  · norm_num [wPopC6, wCellC6a, wCellC6b, Population.evolve, evolveLoop, fitnessSumGo,
      Cell.calcFitness, goalMinDist, selectParent, selectLoop, curFit, Cell.mutate,
      mutateLoop, Cell.getChild, Cell.clone, mkCell, dummyCell, List.range_succ]
  · norm_num [wPopC6, wCellC6a, wCellC6b]
  · intro hvec
    have hx := congrArg Vector2D.x hvec
    norm_num at hx
  · norm_num [wPopC6z, Population.evolve, evolveLoop, Cell.clone, mkCell, dummyCell]

/-- Witness for C5 at a concrete dead cell: a further tick returns the
cell completely unchanged. -/
theorem terminal_tick_noop_witness :
    (wCell5.reachedGoal = true → wCell5.isDead = true) ∧
    (wCell5.isDead = true ∨ wCell5.reachedGoal = true) ∧
    wCell5.update wGoal5 100 100 = some wCell5 :=
  ⟨fun _ => rfl, Or.inl rfl,
    terminal_tick_noop.1 wGoal5 100 100 wCell5 (fun _ => rfl) (Or.inl rfl)⟩

end

end CellsGA

